import Mathlib

/-
  Verification development for the LLM web-deployment pipeline
  (Flask webhook -> code generation -> GitHub publication -> notification).
  Python strings are modelled as lists of characters with Python-faithful
  semantics for find (sentinel -1), slicing (negative indices count from
  the end), strip, and substring containment.
-/

namespace WebDeploy

/-- Model of a Python string: a list of characters. -/
abbrev PyStr := List Char

/-- Conversion from a Lean string literal to the Python string model. -/
def pystr (s : String) : PyStr := s.toList

/-- Python str.lower restricted to the characters we handle (ASCII lowering). -/
def pyLower (s : PyStr) : PyStr := s.map Char.toLower

/-- First index at which the pattern occurs in the string, if any.
    Mirrors the search performed by Python str.find. -/
def findAt (s pat : PyStr) : Option Nat :=
  match s with
  | [] => if pat.isEmpty then some 0 else none
  | c :: rest =>
    if pat.isPrefixOf (c :: rest) then some 0
    else (findAt rest pat).map (· + 1)

/-- Python str.find: index of first occurrence, or -1. -/
def pyFind (s pat : PyStr) : Int :=
  match findAt s pat with
  | some n => (n : Int)
  | none => -1

/-- Python str.find with a nonnegative start position. -/
def pyFindFrom (s pat : PyStr) (start : Nat) : Int :=
  match findAt (s.drop start) pat with
  | some n => ((start + n : Nat) : Int)
  | none => -1

/-- Python substring containment (the in operator on strings). -/
def containsSub (s pat : PyStr) : Bool := (findAt s pat).isSome

/-- Normalize a Python slice bound: negative counts from the end, then clamp. -/
def pyClamp (n : Nat) (x : Int) : Nat :=
  if x < 0 then ((n : Int) + x).toNat else min x.toNat n

/-- Python slice s[a:b]. -/
def pySlice (s : PyStr) (a b : Int) : PyStr :=
  let n := s.length
  (s.take (pyClamp n b)).drop (pyClamp n a)

/-- Characters removed by Python str.strip with no argument. -/
def isPySpace (c : Char) : Bool :=
  c == ' ' || c == '\t' || c == '\n' || c == '\r' || c == '\x0b' || c == '\x0c'

/-- Python str.strip: remove leading and trailing whitespace. -/
def pyStrip (s : PyStr) : PyStr :=
  ((s.dropWhile isPySpace).reverse.dropWhile isPySpace).reverse

/-! ## parse_generated_code (llm_generator.py lines 141-185) -/

/-- Fence-removal stage of parse_generated_code: if a \x7b\x7d-free
    triple-backtick html fence is present extract its interior, else any
    generic fence, else keep the text. Translated from the source. -/
def fenceStage (code : PyStr) : PyStr :=
  if containsSub code (pystr "```html") then
    let start := pyFind code (pystr "```html") + 7
    let e := pyFindFrom code (pystr "```") start.toNat
    pyStrip (pySlice code start e)
  else if containsSub code (pystr "```") then
    let start := pyFind code (pystr "```") + 3
    let e := pyFindFrom code (pystr "```") start.toNat
    pyStrip (pySlice code start e)
  else code

/-- Root-tag stage of parse_generated_code: when the lowered text contains
    an opening html tag, re-slice using the find results with the plus-7
    offset and the end-greater-than-start guard. Translated from the source. -/
def htmlStage (code : PyStr) : PyStr :=
  if containsSub (pyLower code) (pystr "<html") then
    let start := pyFind (pyLower code) (pystr "<html")
    let e := pyFind (pyLower code) (pystr "</html>") + 7
    if start ≠ -1 ∧ e > start then pySlice code start e else code
  else code

/-- Content stored under index.html by parse_generated_code. -/
def parseIndexHtml (generatedCode : PyStr) : PyStr :=
  htmlStage (fenceStage (pyStrip generatedCode))

/-- Keys of the generated-file mapping: attachment names may be absent
    (Python None), so a key is an optional string. -/
abbrev Key := Option PyStr

/-- Python dict assignment on an association list: replace in place if the
    key is present, otherwise append at the end. -/
def insertKV (m : List (Key × PyStr)) (k : Key) (v : PyStr) : List (Key × PyStr) :=
  match m with
  | [] => [(k, v)]
  | (k', v') :: rest =>
    if k' = k then (k, v) :: rest else (k', v') :: insertKV rest k v

/-- Lookup in the association list (first matching key). -/
def lookupKV (m : List (Key × PyStr)) (k : Key) : Option PyStr :=
  match m with
  | [] => none
  | (k', v') :: rest => if k' = k then some v' else lookupKV rest k

/-- The key of the primary deliverable document. -/
def kIndex : Key := some (pystr "index.html")

/-- The key of the license file. -/
def kLicense : Key := some (pystr "LICENSE")

/-- The key of the descriptive document. -/
def kReadme : Key := some (pystr "README.md")

/-- parse_generated_code: extract the deliverable, store it as index.html,
    then add every processed attachment under its own name. -/
def parseGeneratedCode (generatedCode : PyStr) (attachments : List (Key × PyStr)) :
    List (Key × PyStr) :=
  attachments.foldl (fun m p => insertKV m p.1 p.2)
    [(kIndex, parseIndexHtml generatedCode)]

/-! ## process_attachments (llm_generator.py lines 65-100) -/

/-- An inbound attachment: Python dict.get may return None for either field. -/
structure Attachment where
  name : Key
  url : Option PyStr
  deriving DecidableEq

/-- Value of a standard base64 alphabet character. -/
def b64Val (c : Char) : Option Nat :=
  if 'A' ≤ c ∧ c ≤ 'Z' then some (c.toNat - 65)
  else if 'a' ≤ c ∧ c ≤ 'z' then some (c.toNat - 97 + 26)
  else if '0' ≤ c ∧ c ≤ '9' then some (c.toNat - 48 + 52)
  else if c = '+' then some 62
  else if c = '/' then some 63
  else none

/-- Decode a list of 6-bit values into bytes, 4 values to 3 bytes, with the
    standard handling of a final group of 2 or 3 values. -/
def b64Bytes : List Nat → List Nat
  | a :: b :: c :: d :: rest =>
    (a * 4 + b / 16) :: ((b % 16) * 16 + c / 4) :: ((c % 4) * 64 + d) :: b64Bytes rest
  | [a, b] => [a * 4 + b / 16]
  | [a, b, c] => [a * 4 + b / 16, (b % 16) * 16 + c / 4]
  | _ => []

/-- Python base64.b64decode with default validation: characters outside the
    alphabet and padding are discarded, the kept length must be a multiple
    of 4 and the data length must not be 1 mod 4, else the call raises
    (modelled as none). -/
def b64decode (s : PyStr) : Option (List Nat) :=
  let kept := s.filter (fun c => (b64Val c).isSome || c == '=')
  let data := kept.filter (fun c => (b64Val c).isSome)
  if kept.length % 4 = 0 ∧ data.length % 4 ≠ 1 then
    some (b64Bytes (data.filterMap b64Val))
  else none

/-- Continuation byte of a UTF-8 sequence. -/
def isCont (b : Nat) : Bool := 0x80 ≤ b && b < 0xC0

/-- Python bytes.decode for UTF-8: strict decoding, none on any invalid,
    overlong, surrogate or out-of-range sequence. -/
def utf8Decode : List Nat → Option (List Char)
  | [] => some []
  | b1 :: rest =>
    if b1 < 0x80 then
      (utf8Decode rest).map (fun cs => Char.ofNat b1 :: cs)
    else if b1 < 0xC2 then none
    else if b1 < 0xE0 then
      match rest with
      | b2 :: rest2 =>
        if isCont b2 then
          (utf8Decode rest2).map (fun cs => Char.ofNat ((b1 - 0xC0) * 0x40 + (b2 - 0x80)) :: cs)
        else none
      | [] => none
    else if b1 < 0xF0 then
      match rest with
      | b2 :: b3 :: rest3 =>
        let cp := (b1 - 0xE0) * 0x1000 + (b2 - 0x80) * 0x40 + (b3 - 0x80)
        if isCont b2 ∧ isCont b3 ∧ 0x800 ≤ cp ∧ (cp < 0xD800 ∨ 0xE000 ≤ cp) then
          (utf8Decode rest3).map (fun cs => Char.ofNat cp :: cs)
        else none
      | _ => none
    else if b1 < 0xF5 then
      match rest with
      | b2 :: b3 :: b4 :: rest4 =>
        let cp := (b1 - 0xF0) * 0x40000 + (b2 - 0x80) * 0x1000 + (b3 - 0x80) * 0x40 + (b4 - 0x80)
        if isCont b2 ∧ isCont b3 ∧ isCont b4 ∧ 0x10000 ≤ cp ∧ cp < 0x110000 then
          (utf8Decode rest4).map (fun cs => Char.ofNat cp :: cs)
        else none
      | _ => none
    else none

/-- Python s.split(sep, 1) at the first occurrence of a character, viewed as
    the pair of both halves; none when the separator is absent (in which
    case the 2-target unpacking in the source raises). -/
def splitOnce (s : PyStr) (sep : Char) : Option (PyStr × PyStr) :=
  match s with
  | [] => none
  | x :: rest =>
    if x = sep then some ([], rest)
    else (splitOnce rest sep).map (fun p => (x :: p.1, p.2))

/-- Body of the per-attachment try block: split the data URI at the first
    comma, base64-decode and UTF-8-decode the payload when the header
    mentions base64, else take the payload verbatim; none models a raised
    exception. -/
def dataDecode (dataUri : PyStr) : Option PyStr :=
  match splitOnce dataUri ',' with
  | none => none
  | some (header, encoded) =>
    if containsSub header (pystr "base64") then
      match b64decode encoded with
      | none => none
      | some bs => utf8Decode bs
    else some encoded

/-- Outcome of one loop iteration of process_attachments: none when the
    entry is skipped (missing or non-data url) or its decoding raised. -/
def decodeAttachment (a : Attachment) : Option (Key × PyStr) :=
  match a.url with
  | none => none
  | some u =>
    if u.isEmpty ∨ ¬ (pystr "data:").isPrefixOf u then none
    else
      match dataDecode u with
      | none => none
      | some content => some (a.name, content)

/-- One loop iteration of process_attachments acting on the mapping. -/
def attachmentStep (m : List (Key × PyStr)) (a : Attachment) : List (Key × PyStr) :=
  match decodeAttachment a with
  | none => m
  | some p => insertKV m p.1 p.2

/-- process_attachments: fold the per-entry decoding over the list,
    accumulating a mapping. -/
def processAttachments (attachments : List Attachment) : List (Key × PyStr) :=
  attachments.foldl attachmentStep []

/-! ## Document synthesizer and generate_app_code (llm_generator.py) -/

/-- Lines produced by a Python enumerate(xs, 1) loop appending
    number-dot-space-item-newline for each item. -/
def numberedList (xs : List PyStr) : PyStr :=
  (xs.enum.map (fun p => pystr (toString (p.1 + 1)) ++ pystr ". " ++ p.2 ++ ['\n'])).foldl
    (· ++ ·) []

/-- generate_mit_license: fixed MIT license text with the current year
    substituted; the year is passed explicitly since the source reads the
    wall clock. -/
def generateMitLicense (year : Nat) : PyStr :=
  pystr "MIT License\n\nCopyright (c) " ++ pystr (toString year) ++
  pystr "\n\nPermission is hereby granted, free of charge, to any person obtaining a copy\nof this software and associated documentation files (the \"Software\"), to deal\nin the Software without restriction, including without limitation the rights\nto use, copy, modify, merge, publish, distribute, sublicense, and/or sell\ncopies of the Software, and to permit persons to whom the Software is\nfurnished to do so, subject to the following conditions:\n\nThe above copyright notice and this permission notice shall be included in all\ncopies or substantial portions of the Software.\n\nTHE SOFTWARE IS PROVIDED \"AS IS\", WITHOUT WARRANTY OF ANY KIND, EXPRESS OR\nIMPLIED, INCLUDING BUT NOT LIMITED TO THE WARRANTIES OF MERCHANTABILITY,\nFITNESS FOR A PARTICULAR PURPOSE AND NONINFRINGEMENT. IN NO EVENT SHALL THE\nAUTHORS OR COPYRIGHT HOLDERS BE LIABLE FOR ANY CLAIM, DAMAGES OR OTHER\nLIABILITY, WHETHER IN AN ACTION OF CONTRACT, TORT OR OTHERWISE, ARISING FROM,\nOUT OF OR IN CONNECTION WITH THE SOFTWARE OR THE USE OR OTHER DEALINGS IN THE\nSOFTWARE.\n"

/-- generate_readme: descriptive document restating the brief and
    enumerating the criteria. -/
def generateReadme (brief : PyStr) (checks : List PyStr) : PyStr :=
  pystr "# Web Application\n\n## Overview\n" ++ brief ++
  pystr "\n\n## Features\nThis application implements the following features:\n" ++
  numberedList checks ++
  pystr "\n\n## Setup\n1. Clone this repository\n2. Open `index.html` in a web browser\n3. Or visit the GitHub Pages deployment\n\n## Usage\nThe application runs entirely in the browser. Simply open the page and follow the on-screen instructions.\n\n## Technology Stack\n- HTML5\n- CSS3\n- JavaScript (ES6+)\n- External libraries loaded via CDN\n\n## Code Structure\n- `index.html` - Main application file containing all HTML, CSS, and JavaScript\n- `LICENSE` - MIT License\n- `README.md` - This file\n\n## License\nThis project is licensed under the MIT License - see the LICENSE file for details.\n\n## Deployment\nThis application is deployed using GitHub Pages and is accessible at the GitHub Pages URL of the repository.\n"

/-- generate_app_code: process attachments, call the model (its outcome is
    the modelResponse parameter, an exception propagating as error), parse
    the response, then add the mandatory LICENSE and README entries. -/
def generateAppCode (modelResponse : Except PyStr PyStr) (brief : PyStr)
    (attachments : List Attachment) (checks : List PyStr) (year : Nat) :
    Except PyStr (List (Key × PyStr)) :=
  let processed := processAttachments attachments
  match modelResponse with
  | .error e => .error e
  | .ok txt =>
    let files := parseGeneratedCode txt processed
    let files := insertKV files kLicense (generateMitLicense year)
    let files := insertKV files kReadme (generateReadme brief checks)
    .ok files

/-! ## notify_evaluation_server (app.py lines 191-236) -/

/-- Outcome of one HTTP round trip: a raised transport exception or a
    response with a status code. -/
inductive HttpOutcome where
  | exc : HttpOutcome
  | status : Nat → HttpOutcome
  deriving DecidableEq

/-- The success test of the notifier loop: response arrived with code 200. -/
def isOk200 : HttpOutcome → Bool
  | .status 200 => true
  | _ => false

/-- The retry loop of notify_evaluation_server, with the remaining number of
    attempts and the index of the current attempt; returns the boolean
    result, the number of attempts made, and the list of waits performed. -/
def notifyAux (responses : Nat → HttpOutcome) : Nat → Nat → Bool × Nat × List Nat
  | 0, _ => (false, 0, [])
  | r + 1, i =>
    if isOk200 (responses i) then (true, 1, [])
    else if r = 0 then (false, 1, [])
    else
      let res := notifyAux responses r (i + 1)
      (res.1, res.2.1 + 1, 2 ^ i :: res.2.2)

/-- notify_evaluation_server: 4 total attempts, exponential backoff waits of
    2 to the attempt index between failed attempts, stop at the first 200. -/
def notifyEvaluationServer (responses : Nat → HttpOutcome) : Bool × Nat × List Nat :=
  notifyAux responses 4 0

/-! ## handle_task (app.py lines 78-188) -/

/-- Parsed fields of the webhook request body used by the handler. -/
structure TaskRequest where
  secret : Option PyStr
  email : Option PyStr
  task : Option PyStr
  round : Option Int
  nonce : Option PyStr
  brief : Option PyStr
  checks : List PyStr
  evaluationUrl : Option PyStr
  attachments : List Attachment

/-- Outcomes of the three pipeline stages invoked by the handler; errors
    carry the exception message. -/
structure PipelineEnv where
  genResult : Except PyStr (List (Key × PyStr))
  deployResult : Except PyStr (PyStr × PyStr × PyStr)
  notifyResult : Except PyStr Bool

/-- Which external side effects the handler performed. -/
structure Trace where
  generated : Bool
  deployed : Bool
  notified : Bool
  deriving DecidableEq

/-- No side effect performed. -/
def Trace.none : Trace := ⟨false, false, false⟩

/-- HTTP response of the handler. -/
structure Response where
  statusCode : Nat
  repoUrl : Option PyStr
  pagesUrl : Option PyStr
  commitSha : Option PyStr
  errorMsg : Option PyStr
  deriving DecidableEq

/-- handle_task: parse the body, check the secret, generate, deploy, notify
    (failure tolerated), and shape the response. -/
def handleTask (mySecret : PyStr) (body : Option TaskRequest) (env : PipelineEnv) :
    Response × Trace :=
  match body with
  | none => (⟨400, none, none, none, some (pystr "No JSON data provided")⟩, Trace.none)
  | some data =>
    if data.secret ≠ some mySecret then
      (⟨403, none, none, none, some (pystr "Invalid secret")⟩, Trace.none)
    else
      match env.genResult with
      | .error e =>
        (⟨500, none, none, none, some (pystr "Code generation failed: " ++ e)⟩,
         ⟨true, false, false⟩)
      | .ok _ =>
        match env.deployResult with
        | .error e =>
          (⟨500, none, none, none, some (pystr "GitHub deployment failed: " ++ e)⟩,
           ⟨true, true, false⟩)
        | .ok (repoUrl, commitSha, pagesUrl) =>
          (⟨200, some repoUrl, some pagesUrl, some commitSha, Option.none⟩,
           ⟨true, true, true⟩)

/-! ## github_manager.py -/

/-- Outcomes of the external steps of create_and_deploy_repo; each fallible
    step either succeeds or raises with a message. -/
structure GitEnv where
  initRes : Except PyStr Unit
  cfgNameRes : Except PyStr Unit
  cfgEmailRes : Except PyStr Unit
  writeRes : Except PyStr Unit
  addRes : Except PyStr Unit
  commitRes : Except PyStr Unit
  revParseRes : Except PyStr PyStr
  createRepoRes : Except PyStr (PyStr × PyStr)

/-- Filesystem state: the identifiers of the live temporary directories and
    a counter supplying fresh ones. -/
structure FsState where
  nextId : Nat
  tempDirs : List Nat
  deriving DecidableEq

/-- tempfile.mkdtemp: allocate a fresh private scratch directory. -/
def mkdtemp (s : FsState) : Nat × FsState :=
  (s.nextId, ⟨s.nextId + 1, s.nextId :: s.tempDirs⟩)

/-- shutil.rmtree with ignore_errors: remove the directory, never raising. -/
def rmtree (d : Nat) (s : FsState) : FsState :=
  ⟨s.nextId, s.tempDirs.erase d⟩

/-- get_commit_sha: strip the rev-parse output and keep the first 7
    characters. -/
def getCommitSha (revParseOut : PyStr) : PyStr := (pyStrip revParseOut).take 7

/-- Body of the try block of create_and_deploy_repo: configure git (its own
    failures are swallowed by the source), run the git steps in order,
    compute the short commit sha, then create and push the repository;
    the first raised error propagates. -/
def deployBody (env : GitEnv) : Except PyStr (PyStr × PyStr × PyStr) := do
  env.initRes
  env.cfgNameRes
  env.cfgEmailRes
  env.writeRes
  env.addRes
  env.commitRes
  let out ← env.revParseRes
  let sha := getCommitSha out
  let (repoUrl, pagesUrl) ← env.createRepoRes
  pure (repoUrl, sha, pagesUrl)

/-- create_and_deploy_repo: validate credentials and the file set, acquire
    a scratch directory, run the body, and remove the directory in the
    finally block on every exit path. -/
def createAndDeployRepo (creds : Option (PyStr × PyStr)) (files : List (Key × PyStr))
    (env : GitEnv) (s : FsState) : Except PyStr (PyStr × PyStr × PyStr) × FsState :=
  match creds with
  | none =>
    (.error (pystr "GitHub credentials not configured. Check GITHUB_TOKEN and GITHUB_USERNAME."), s)
  | some _ =>
    if files.isEmpty then (.error (pystr "No files provided to push to GitHub."), s)
    else
      let (d, s1) := mkdtemp s
      (deployBody env, rmtree d s1)

/-- The HTTP method of a call to the pages management endpoint. -/
inductive HttpMethod where
  | post : HttpMethod
  | put : HttpMethod
  deriving DecidableEq

/-- Outcomes of the calls made by create_github_repo. -/
structure RepoEnv where
  authRes : Except PyStr Unit
  getRepoRes : Except PyStr Unit
  createRes : Except PyStr Unit
  remoteAddRes : Except PyStr Unit
  remoteSetUrlRes : Except PyStr Unit
  branchRes : Except PyStr Unit
  pushRes : Except PyStr Unit
  repoHtmlUrl : PyStr
  pagesPost : Option Nat
  pagesPut : Option Nat

/-- enable_github_pages: POST the pages configuration; on a 409 conflict
    retry with PUT; report success exactly for a 200, 201 or 204 final
    status; any exception is caught and reported as false. Also returns
    the methods of the calls issued. -/
def enableGithubPages (postRes putRes : Option Nat) : Bool × List HttpMethod :=
  match postRes with
  | none => (false, [HttpMethod.post])
  | some s1 =>
    if s1 = 409 then
      match putRes with
      | none => (false, [HttpMethod.post, HttpMethod.put])
      | some s2 => ([200, 201, 204].contains s2, [HttpMethod.post, HttpMethod.put])
    else ([200, 201, 204].contains s1, [HttpMethod.post])

/-- create_github_repo: authenticate, look up the repository and create it
    when the lookup raises, set or update the remote, rename the branch,
    force-push, attempt pages activation with its result discarded, and
    return the repository URL and the computed pages URL. Also returns the
    methods of the pages calls issued. -/
def createGithubRepo (repoName username : PyStr) (env : RepoEnv) :
    Except PyStr (PyStr × PyStr) × List HttpMethod :=
  match env.authRes with
  | .error e => (.error e, [])
  | .ok _ =>
    let repoStep : Except PyStr Unit :=
      match env.getRepoRes with
      | .ok _ => .ok ()
      | .error _ => env.createRes
    match repoStep with
    | .error e => (.error e, [])
    | .ok _ =>
      let remoteStep : Except PyStr Unit :=
        match env.remoteAddRes with
        | .ok _ => .ok ()
        | .error _ => env.remoteSetUrlRes
      match remoteStep with
      | .error e => (.error e, [])
      | .ok _ =>
        match env.branchRes with
        | .error e => (.error e, [])
        | .ok _ =>
          match env.pushRes with
          | .error e => (.error e, [])
          | .ok _ =>
            let pages := enableGithubPages env.pagesPost env.pagesPut
            (.ok (env.repoHtmlUrl,
                  pystr "https://" ++ username ++ pystr ".github.io/" ++ repoName ++ pystr "/"),
             pages.2)

/-! ## Claim C1: algorithm as worded by the spec, and as amended -/

/-- Interior of the first fenced block whose marker starts at index i and
    has the given length: the span up to the next fence marker, or to the
    end of the text when there is none. Written from the words of the
    claim, verbatim interior. -/
def specInterior (s : PyStr) (tagLen i : Nat) : PyStr :=
  let body := s.drop (i + tagLen)
  match findAt body (pystr "```") with
  | some j => body.take j
  | none => body

/-- Fence extraction as worded by claim C1: a fence tagged for the markup
    language takes precedence, else any fence, else the text verbatim. -/
def specC1Fence (s : PyStr) : PyStr :=
  match findAt s (pystr "```html") with
  | some i => specInterior s 7 i
  | none =>
    match findAt s (pystr "```") with
    | some i => specInterior s 3 i
    | none => s

/-- The index.html entry as worded by claim C1: fence extraction, then if
    the text contains a case-insensitive opening root tag, the substring
    from that opening tag through the matching closing tag inclusive; with
    no opening tag the fence-extracted text as-is. -/
def specC1Entry (s : PyStr) : PyStr :=
  let t := specC1Fence s
  match findAt (pyLower t) (pystr "<html") with
  | none => t
  | some i =>
    match findAt ((pyLower t).drop i) (pystr "</html>") with
    | some j => (t.drop i).take (j + 7)
    | none => t

/-- Interior extraction as amended: the span from just after the fence
    marker to the next fence marker, or to the end of the text minus its
    final character when there is none, stripped of whitespace. -/
def amendedInterior (s : PyStr) (start : Nat) : PyStr :=
  let body := s.drop start
  pyStrip (match findAt body (pystr "```") with
    | some j => body.take j
    | none => body.dropLast)

/-- Fence extraction as amended: the whole text is stripped first; a fence
    tagged for the markup language takes precedence, else any fence, else
    the stripped text itself. -/
def amendedFence (s : PyStr) : PyStr :=
  match findAt s (pystr "```html") with
  | some i => amendedInterior s (i + 7)
  | none =>
    match findAt s (pystr "```") with
    | some i => amendedInterior s (i + 3)
    | none => s

/-- Root-tag re-slice as amended: with the first case-insensitive opening
    tag at index i, the end bound is 7 plus the index of the first
    case-insensitive closing tag anywhere in the text, or 6 when there is
    none; the slice from i up to that bound is taken exactly when the bound
    exceeds i, else the text is unchanged. -/
def amendedHtml (t : PyStr) : PyStr :=
  match findAt (pyLower t) (pystr "<html") with
  | none => t
  | some i =>
    let e : Nat :=
      match findAt (pyLower t) (pystr "</html>") with
      | some j => j + 7
      | none => 6
    if i < e then (t.take e).drop i else t

/-- The amended claim C1 algorithm in full. -/
def amendedC1Entry (s : PyStr) : PyStr := amendedHtml (amendedFence (pyStrip s))

/-- Number of entries of the mapping carrying the given key. -/
def countKey (m : List (Key × PyStr)) (k : Key) : Nat :=
  ((m.map Prod.fst).filter (fun a => a = k)).length

/-! ## Helper lemmas -/

/-- Clamping a nonnegative slice bound is a minimum. -/
theorem pyClamp_natCast (n a : Nat) : pyClamp n (a : Int) = min a n := by
  unfold pyClamp
  rw [if_neg (by omega)]
  omega

/-- Clamping the slice bound -1 removes one from the length. -/
theorem pyClamp_negOne (n : Nat) : pyClamp n (-1) = n - 1 := by
  unfold pyClamp
  rw [if_pos (by omega)]
  omega

/-- A Python slice with nonnegative bounds is a take followed by a drop. -/
theorem pySlice_natCast (s : PyStr) (a b : Nat) :
    pySlice s a b = (s.take b).drop a := by
  simp only [pySlice, pyClamp_natCast]
  have ht : s.take (min b s.length) = s.take b := List.take_eq_take.mpr (by omega)
  rw [ht]
  by_cases hha : a ≤ s.length
  · rw [Nat.min_eq_left hha]
  · have hx : (s.take b).length ≤ min a s.length := by
      simp only [List.length_take]
      omega
    have hy : (s.take b).length ≤ a := by
      simp only [List.length_take]
      omega
    rw [List.drop_eq_nil_of_le hx, List.drop_eq_nil_of_le hy]

/-- A Python slice ending at -1 drops the final character. -/
theorem pySlice_negOne (s : PyStr) (a : Nat) :
    pySlice s a (-1) = (s.drop a).dropLast := by
  simp only [pySlice, pyClamp_natCast, pyClamp_negOne]
  rw [List.dropLast_eq_take, List.length_drop, List.drop_take]
  by_cases hha : a ≤ s.length
  · rw [Nat.min_eq_left hha]
    congr 1
    omega
  · rw [Nat.min_eq_right (by omega), List.drop_length]
    rw [List.drop_eq_nil_of_le (by omega)]
    simp

/-- The fence-interior slice of the source equals the amended-claim
    interior extraction. -/
theorem fenceSlice_eq (s : PyStr) (start : Nat) :
    pyStrip (pySlice s (start : Int) (pyFindFrom s (pystr "```") start)) =
      amendedInterior s start := by
  unfold amendedInterior pyFindFrom
  cases h : findAt (s.drop start) (pystr "```") with
  | some j =>
    simp only [h]
    have hd : start + j - start = j := by omega
    rw [pySlice_natCast, List.drop_take, hd]
  | none =>
    simp only [h]
    rw [pySlice_negOne]

/-- The fence-removal stage of the source equals the amended-claim fence
    extraction. -/
theorem fenceStage_eq (s : PyStr) : fenceStage s = amendedFence s := by
  cases h1 : findAt s (pystr "```html") with
  | some i =>
    have hc : containsSub s (pystr "```html") = true := by
      simp [containsSub, h1]
    have hf : pyFind s (pystr "```html") = (i : Int) := by
      simp [pyFind, h1]
    have hcast : ((i : Int) + 7) = ((i + 7 : Nat) : Int) := by push_cast; ring
    simp only [fenceStage, amendedFence, hc, hf, h1, if_true, hcast,
      Int.toNat_natCast]
    exact fenceSlice_eq s (i + 7)
  | none =>
    have hc : containsSub s (pystr "```html") = false := by
      simp [containsSub, h1]
    cases h2 : findAt s (pystr "```") with
    | some i =>
      have hc2 : containsSub s (pystr "```") = true := by
        simp [containsSub, h2]
      have hf : pyFind s (pystr "```") = (i : Int) := by
        simp [pyFind, h2]
      have hcast : ((i : Int) + 3) = ((i + 3 : Nat) : Int) := by push_cast; ring
      simp only [fenceStage, amendedFence, hc, hc2, hf, h1, h2, if_true,
        Bool.false_eq_true, if_false, hcast, Int.toNat_natCast]
      exact fenceSlice_eq s (i + 3)
    | none =>
      have hc2 : containsSub s (pystr "```") = false := by
        simp [containsSub, h2]
      simp only [fenceStage, amendedFence, hc, hc2, h1, h2,
        Bool.false_eq_true, if_false]

/-- The root-tag stage of the source equals the amended-claim re-slice. -/
theorem htmlStage_eq (t : PyStr) : htmlStage t = amendedHtml t := by
  cases h1 : findAt (pyLower t) (pystr "<html") with
  | none =>
    have hc : containsSub (pyLower t) (pystr "<html") = false := by
      simp [containsSub, h1]
    simp only [htmlStage, amendedHtml, hc, h1, Bool.false_eq_true, if_false]
  | some i =>
    have hc : containsSub (pyLower t) (pystr "<html") = true := by
      simp [containsSub, h1]
    have hf : pyFind (pyLower t) (pystr "<html") = (i : Int) := by
      simp [pyFind, h1]
    cases h2 : findAt (pyLower t) (pystr "</html>") with
    | some j =>
      have hf2 : pyFind (pyLower t) (pystr "</html>") = (j : Int) := by
        simp [pyFind, h2]
      simp only [htmlStage, amendedHtml, hc, hf, hf2, h1, h2, if_true]
      by_cases hij : i < j + 7
      · rw [if_pos (by constructor <;> omega), if_pos hij]
        have hcast : ((j : Int) + 7) = ((j + 7 : Nat) : Int) := by push_cast; ring
        rw [hcast, pySlice_natCast]
      · rw [if_neg (by omega), if_neg hij]
    | none =>
      have hf2 : pyFind (pyLower t) (pystr "</html>") = (-1 : Int) := by
        simp [pyFind, h2]
      simp only [htmlStage, amendedHtml, hc, hf, hf2, h1, h2, if_true]
      by_cases hi6 : i < 6
      · rw [if_pos (by constructor <;> omega), if_pos hi6]
        have hcast : ((-1 : Int) + 7) = ((6 : Nat) : Int) := by norm_num
        rw [hcast, pySlice_natCast]
      · rw [if_neg (by omega), if_neg hi6]

/-- A list without duplicates containing an element has exactly one
    occurrence of it. -/
theorem filter_eq_length_one {α : Type} [DecidableEq α] (l : List α) (k : α)
    (hn : l.Nodup) (hm : k ∈ l) : (l.filter (fun a => a = k)).length = 1 := by
  induction l with
  | nil => cases hm
  | cons a rest ih =>
    rcases List.mem_cons.mp hm with h | h
    · subst h
      have hnr : k ∉ rest := (List.nodup_cons.mp hn).1
      have hz : rest.filter (fun a => a = k) = [] := by
        rw [List.filter_eq_nil_iff]
        intro b hb
        simp only [decide_eq_true_eq]
        exact fun hbk => hnr (hbk ▸ hb)
      simp [hz]
    · have hna : ¬ a = k := fun he => (List.nodup_cons.mp hn).1 (he ▸ h)
      simp only [List.filter_cons, hna, decide_eq_true_eq, if_neg, if_false]
      exact ih (List.nodup_cons.mp hn).2 h

/-- Keys after a dict assignment: unchanged when the key was present,
    appended at the end otherwise. -/
theorem keys_insertKV (m : List (Key × PyStr)) (k : Key) (v : PyStr) :
    (insertKV m k v).map Prod.fst =
      if k ∈ m.map Prod.fst then m.map Prod.fst else m.map Prod.fst ++ [k] := by
  induction m with
  | nil => simp [insertKV]
  | cons p rest ih =>
    by_cases h : p.1 = k
    · simp [insertKV, h]
    · have hne : ¬ k = p.1 := fun hh => h hh.symm
      by_cases h2 : k ∈ rest.map Prod.fst
      · simp [insertKV, h, ih, h2, hne]
      · simp [insertKV, h, ih, h2, hne]

/-- A dict assignment makes its key present. -/
theorem mem_keys_insertKV_self (m : List (Key × PyStr)) (k : Key) (v : PyStr) :
    k ∈ (insertKV m k v).map Prod.fst := by
  rw [keys_insertKV]
  by_cases h : k ∈ m.map Prod.fst <;> simp [h]

/-- A dict assignment keeps every present key present. -/
theorem mem_keys_insertKV_of_mem (m : List (Key × PyStr)) (k a : Key) (v : PyStr)
    (h : a ∈ m.map Prod.fst) : a ∈ (insertKV m k v).map Prod.fst := by
  rw [keys_insertKV]
  by_cases h2 : k ∈ m.map Prod.fst <;> simp [h2, h]

/-- A dict assignment preserves distinctness of the keys. -/
theorem nodup_keys_insertKV (m : List (Key × PyStr)) (k : Key) (v : PyStr)
    (h : (m.map Prod.fst).Nodup) : ((insertKV m k v).map Prod.fst).Nodup := by
  rw [keys_insertKV]
  by_cases h2 : k ∈ m.map Prod.fst
  · simpa [h2] using h
  · simp [h2, List.nodup_append, h, List.disjoint_singleton]

/-- Folding dict assignments keeps every present key present. -/
theorem mem_keys_foldl_insertKV (l : List (Key × PyStr)) :
    ∀ (m : List (Key × PyStr)) (a : Key), a ∈ m.map Prod.fst →
      a ∈ (l.foldl (fun m p => insertKV m p.1 p.2) m).map Prod.fst := by
  induction l with
  | nil => intro m a h; simpa using h
  | cons p rest ih =>
    intro m a h
    exact ih _ a (mem_keys_insertKV_of_mem m p.1 a p.2 h)

/-- Folding dict assignments preserves distinctness of the keys. -/
theorem nodup_keys_foldl_insertKV (l : List (Key × PyStr)) :
    ∀ (m : List (Key × PyStr)), (m.map Prod.fst).Nodup →
      ((l.foldl (fun m p => insertKV m p.1 p.2) m).map Prod.fst).Nodup := by
  induction l with
  | nil => intro m h; simpa using h
  | cons p rest ih =>
    intro m h
    exact ih _ (nodup_keys_insertKV m p.1 p.2 h)

/-- The attachment loop is the fold of dict assignments over the
    successfully decoded entries. -/
theorem foldl_attachmentStep (l : List Attachment) :
    ∀ (m : List (Key × PyStr)),
      l.foldl attachmentStep m =
        (l.filterMap decodeAttachment).foldl (fun m p => insertKV m p.1 p.2) m := by
  induction l with
  | nil => intro m; simp
  | cons a rest ih =>
    intro m
    cases h : decodeAttachment a with
    | none => simp [attachmentStep, h, ih]
    | some p => simp [attachmentStep, h, ih]

/-- Splitting one step off a range of powers of two. -/
theorem rangeShift (i m : Nat) :
    (List.range (m + 1)).map (fun k => 2 ^ (i + k)) =
      2 ^ i :: (List.range m).map (fun k => 2 ^ (i + 1 + k)) := by
  rw [List.range_succ_eq_map, List.map_cons, List.map_map]
  congr 1
  refine List.map_congr_left ?_
  intro a _
  simp only [Function.comp_apply]
  congr 1
  omega

/-- The notifier loop makes at most as many attempts as it has fuel. -/
theorem notifyAux_attempts_le (resp : Nat → HttpOutcome) :
    ∀ (r i : Nat), (notifyAux resp r i).2.1 ≤ r := by
  intro r
  induction r with
  | zero => intro i; simp [notifyAux]
  | succ n ih =>
    intro i
    cases h : isOk200 (resp i) with
    | true => simp [notifyAux, h]
    | false =>
      by_cases hn : n = 0
      · subst hn; simp [notifyAux, h]
      · simp only [notifyAux, h, Bool.false_eq_true, if_false, if_neg hn]
        have := ih (i + 1)
        omega

/-- When every attempt fails the notifier loop exhausts its fuel, reports
    failure, and waits the doubling sequence between attempts. -/
theorem notifyAux_all_fail (resp : Nat → HttpOutcome) :
    ∀ (r i : Nat), r ≠ 0 → (∀ k, k < r → isOk200 (resp (i + k)) = false) →
      notifyAux resp r i =
        (false, r, (List.range (r - 1)).map (fun k => 2 ^ (i + k))) := by
  intro r
  induction r with
  | zero => intro i h; exact absurd rfl h
  | succ n ih =>
    intro i _ hall
    have h0 : isOk200 (resp i) = false := by simpa using hall 0 (by omega)
    by_cases hn : n = 0
    · subst hn
      simp [notifyAux, h0]
    · have hrec := ih (i + 1) hn (fun k hk => by
        have hx := hall (k + 1) (by omega)
        have he : i + (k + 1) = i + 1 + k := by omega
        rwa [he] at hx)
      simp only [notifyAux, h0, Bool.false_eq_true, if_false, if_neg hn, hrec]
      have hm : n - 1 + 1 = n := by omega
      have hr : (List.range (n + 1 - 1)).map (fun k => 2 ^ (i + k)) =
          2 ^ i :: (List.range (n - 1)).map (fun k => 2 ^ (i + 1 + k)) := by
        have : n + 1 - 1 = (n - 1) + 1 := by omega
        rw [this, rangeShift]
      rw [hr]

/-- When the first success is the attempt at offset k, the notifier loop
    stops there, reports success after k plus 1 attempts, and waits the
    doubling sequence before it. -/
theorem notifyAux_first_ok (resp : Nat → HttpOutcome) :
    ∀ (r i k : Nat), k < r → isOk200 (resp (i + k)) = true →
      (∀ j, j < k → isOk200 (resp (i + j)) = false) →
      notifyAux resp r i =
        (true, k + 1, (List.range k).map (fun j => 2 ^ (i + j))) := by
  intro r
  induction r with
  | zero => intro i k hk; omega
  | succ n ih =>
    intro i k hk hok hfail
    cases k with
    | zero =>
      have h0 : isOk200 (resp i) = true := by simpa using hok
      simp [notifyAux, h0]
    | succ k' =>
      have h0 : isOk200 (resp i) = false := by simpa using hfail 0 (by omega)
      have hn : n ≠ 0 := by omega
      have hok' : isOk200 (resp (i + 1 + k')) = true := by
        have he : i + (k' + 1) = i + 1 + k' := by omega
        rwa [he] at hok
      have hrec := ih (i + 1) k' (by omega) hok' (fun j hj => by
        have hx := hfail (j + 1) (by omega)
        have he : i + (j + 1) = i + 1 + j := by omega
        rwa [he] at hx)
      simp only [notifyAux, h0, Bool.false_eq_true, if_false, if_neg hn, hrec]
      rw [rangeShift]

/-! ## Claim theorems -/

/-- Claim C1, counterexample: the claim states that with no fence and no
    opening root tag the response text is used verbatim as the index.html
    entry, but parse_generated_code strips surrounding whitespace, so on
    the response text consisting of hi surrounded by spaces the produced
    entry differs from the claimed algorithm. -/
theorem claim1_counterexample :
    parseIndexHtml (pystr " hi ") ≠ specC1Entry (pystr " hi ") := by decide

/-- Claim C1 as amended: the index.html entry equals the claimed
    precedence algorithm once every extraction stage strips surrounding
    whitespace, an unterminated fence interior extends to the end of the
    text minus its final character, and the root-tag re-slice runs from the
    first case-insensitive opening tag up to 7 past the first
    case-insensitive closing tag anywhere in the text (6 when none exists)
    exactly when that bound exceeds the opening index, the text being kept
    unchanged otherwise; moreover the entry is what parse_generated_code
    stores under the index.html key. -/
theorem claim1_extraction_amended :
    (∀ s, parseIndexHtml s = amendedC1Entry s) ∧
    (∀ s, lookupKV (parseGeneratedCode s []) kIndex = some (parseIndexHtml s)) := by
  constructor
  · intro s
    unfold parseIndexHtml amendedC1Entry
    rw [fenceStage_eq, htmlStage_eq]
  · intro s
    simp [parseGeneratedCode, lookupKV]

/-- Claim C2: the notifier makes at most 4 attempts; if every attempt
    fails it makes exactly 4 attempts, waits 1, 2, 4 time-units between
    them (no wait after the last) and returns false without raising; if
    the first success is attempt k it stops there, returns true after
    k plus 1 attempts with the doubling waits before it. -/
theorem claim2_notifier_retry :
    ∀ responses : Nat → HttpOutcome,
      ((notifyEvaluationServer responses).2.1 ≤ 4) ∧
      ((∀ k, k < 4 → isOk200 (responses k) = false) →
        notifyEvaluationServer responses = (false, 4, [1, 2, 4])) ∧
      (∀ k, k < 4 → isOk200 (responses k) = true →
        (∀ j, j < k → isOk200 (responses j) = false) →
        notifyEvaluationServer responses =
          (true, k + 1, (List.range k).map (fun j => 2 ^ j))) := by
  intro responses
  refine ⟨notifyAux_attempts_le responses 4 0, ?_, ?_⟩
  · intro hall
    have h := notifyAux_all_fail responses 4 0 (by omega)
      (fun k hk => by simpa using hall k hk)
    rw [notifyEvaluationServer, h]
    decide
  · intro k hk hok hfail
    have h := notifyAux_first_ok responses 4 0 k hk (by simpa using hok)
      (fun j hj => by simpa using hfail j hj)
    rw [notifyEvaluationServer, h]
    simp

/-- Witness for claim C2: three failing responses followed by a succeeding
    one yield success, exactly 4 attempts, and waits 1, 2, 4. -/
theorem claim2_witness :
    notifyEvaluationServer
      (fun i => if i < 3 then HttpOutcome.status 500 else HttpOutcome.status 200) =
      (true, 4, [1, 2, 4]) := by
  have h := (claim2_notifier_retry
      (fun i => if i < 3 then HttpOutcome.status 500 else HttpOutcome.status 200)).2.2
    3 (by omega) (by decide) (by decide)
  rw [h]
  decide

/-- Claim C3: when generation and publication both succeed the handler
    responds 200 with repo_url, pages_url and commit_sha, whatever the
    notification outcome is (the notification field of the environment is
    unconstrained, covering failures and exhausted retries). -/
theorem claim3_notification_never_aborts :
    ∀ (mySecret : PyStr) (data : TaskRequest) (env : PipelineEnv)
      (files : List (Key × PyStr)) (repoUrl commitSha pagesUrl : PyStr),
      data.secret = some mySecret →
      env.genResult = .ok files →
      env.deployResult = .ok (repoUrl, commitSha, pagesUrl) →
      handleTask mySecret (some data) env =
        (⟨200, some repoUrl, some pagesUrl, some commitSha, none⟩, ⟨true, true, true⟩) := by
  intro mySecret data env files r c p h1 h2 h3
  simp [handleTask, h1, h2, h3]

/-- Witness for claim C3: a concrete request whose notification step
    raises still yields the 200 success response. -/
theorem claim3_witness :
    handleTask (pystr "s")
      (some ⟨some (pystr "s"), none, none, none, none, none, [], none, []⟩)
      ⟨Except.ok [], Except.ok (pystr "R", pystr "C", pystr "P"),
       Except.error (pystr "evaluation server unreachable")⟩ =
      (⟨200, some (pystr "R"), some (pystr "P"), some (pystr "C"), none⟩,
       ⟨true, true, true⟩) :=
  claim3_notification_never_aborts (pystr "s")
    ⟨some (pystr "s"), none, none, none, none, none, [], none, []⟩
    ⟨Except.ok [], Except.ok (pystr "R", pystr "C", pystr "P"),
     Except.error (pystr "evaluation server unreachable")⟩
    [] (pystr "R") (pystr "C") (pystr "P") rfl rfl rfl

/-- Claim C4: whenever the model call succeeds, the file set returned by
    generate_app_code contains an index.html key, exactly one LICENSE key
    and exactly one README.md key; with no attachments its keys are exactly
    index.html, LICENSE, README.md. -/
theorem claim4_mandatory_files :
    ∀ (resp brief : PyStr) (atts : List Attachment) (checks : List PyStr) (year : Nat)
      (files : List (Key × PyStr)),
      generateAppCode (.ok resp) brief atts checks year = .ok files →
      kIndex ∈ files.map Prod.fst ∧
      countKey files kLicense = 1 ∧
      countKey files kReadme = 1 ∧
      (atts = [] → files.map Prod.fst = [kIndex, kLicense, kReadme]) := by
  intro resp brief atts checks year files h
  simp only [generateAppCode, Except.ok.injEq] at h
  subst h
  have hbase : (([(kIndex, parseIndexHtml resp)] : List (Key × PyStr)).map Prod.fst).Nodup := by
    simp
  have hn0 : ((parseGeneratedCode resp (processAttachments atts)).map Prod.fst).Nodup :=
    nodup_keys_foldl_insertKV _ _ hbase
  have hmi : kIndex ∈ (parseGeneratedCode resp (processAttachments atts)).map Prod.fst :=
    mem_keys_foldl_insertKV _ _ _ (by simp)
  have hn1 := nodup_keys_insertKV (parseGeneratedCode resp (processAttachments atts))
    kLicense (generateMitLicense year) hn0
  have hn2 := nodup_keys_insertKV _ kReadme (generateReadme brief checks) hn1
  refine ⟨?_, ?_, ?_, ?_⟩
  · exact mem_keys_insertKV_of_mem _ _ _ _ (mem_keys_insertKV_of_mem _ _ _ _ hmi)
  · exact filter_eq_length_one _ _ hn2
      (mem_keys_insertKV_of_mem _ _ _ _
        (mem_keys_insertKV_self (parseGeneratedCode resp (processAttachments atts))
          kLicense (generateMitLicense year)))
  · exact filter_eq_length_one _ _ hn2 (mem_keys_insertKV_self _ kReadme _)
  · intro h0
    subst h0
    have d1 : ¬ (kIndex = kLicense) := by decide
    have d2 : ¬ (kIndex = kReadme) := by decide
    have d3 : ¬ (kLicense = kReadme) := by decide
    simp [parseGeneratedCode, processAttachments, insertKV, d1, d2, d3]

/-- Witness for claim C4: concrete inputs with no attachments produce
    exactly the three mandatory keys. -/
theorem claim4_witness :
    (generateAppCode (.ok (pystr "<html></html>")) (pystr "Build a counter app") []
        [pystr "Has increment button"] 2025).map (fun fs => fs.map Prod.fst) =
      .ok [kIndex, kLicense, kReadme] := by
  have h := claim4_mandatory_files (pystr "<html></html>") (pystr "Build a counter app")
    [] [pystr "Has increment button"] 2025
    (insertKV (insertKV (parseGeneratedCode (pystr "<html></html>") (processAttachments []))
        kLicense (generateMitLicense 2025)) kReadme
      (generateReadme (pystr "Build a counter app") [pystr "Has increment button"]))
    rfl
  have h4 := h.2.2.2 rfl
  simp [generateAppCode, Except.map, h4]

/-- Claim C5: a parsed request whose secret differs from the configured
    secret yields a 403 response and the empty side-effect trace: no
    generation, no publication, no notification. -/
theorem claim5_secret_mismatch :
    ∀ (mySecret : PyStr) (data : TaskRequest) (env : PipelineEnv),
      data.secret ≠ some mySecret →
      handleTask mySecret (some data) env =
        (⟨403, none, none, none, some (pystr "Invalid secret")⟩, Trace.none) := by
  intro s d env h
  simp [handleTask, h]

/-- Witness for claim C5: a concrete mismatched secret is rejected with
    403 and no side effects. -/
theorem claim5_witness :
    handleTask (pystr "right")
      (some ⟨some (pystr "wrong"), none, none, none, none, none, [], none, []⟩)
      ⟨Except.ok [], Except.ok (pystr "R", pystr "C", pystr "P"), Except.ok true⟩ =
      (⟨403, none, none, none, some (pystr "Invalid secret")⟩, Trace.none) :=
  claim5_secret_mismatch (pystr "right")
    ⟨some (pystr "wrong"), none, none, none, none, none, [], none, []⟩
    ⟨Except.ok [], Except.ok (pystr "R", pystr "C", pystr "P"), Except.ok true⟩
    (by decide)

/-- Claim C6: for a data reference split at its first comma, the decoded
    content is the base64 then UTF-8 decoding of the payload when the
    header mentions base64 and the payload verbatim otherwise; the given
    attachment with base64 payload aGVsbG8= decodes to hello. -/
theorem claim6_data_uri_decoding :
    (∀ (u header payload : PyStr), splitOnce u ',' = some (header, payload) →
      dataDecode u =
        (if containsSub header (pystr "base64") then (b64decode payload).bind utf8Decode
         else some payload)) ∧
    processAttachments
        [⟨some (pystr "a.txt"), some (pystr "data:text/plain;base64,aGVsbG8=")⟩] =
      [(some (pystr "a.txt"), pystr "hello")] := by
  constructor
  · intro u header payload h
    simp only [dataDecode, h]
    cases hb : containsSub header (pystr "base64") with
    | true =>
      simp only [hb, if_true]
      cases b64decode payload <;> simp
    | false => simp [hb]
  · decide

/-- Witness for claim C6: the general decoding rule applied to the
    concrete data reference from the claim. -/
theorem claim6_witness :
    dataDecode (pystr "data:text/plain;base64,aGVsbG8=") =
      (if containsSub (pystr "data:text/plain;base64") (pystr "base64") then
        (b64decode (pystr "aGVsbG8=")).bind utf8Decode
       else some (pystr "aGVsbG8=")) :=
  claim6_data_uri_decoding.1 (pystr "data:text/plain;base64,aGVsbG8=")
    (pystr "data:text/plain;base64") (pystr "aGVsbG8=") (by decide)

/-- Claim C7: process_attachments is total and equals the fold of dict
    assignments over exactly the successfully decoded entries, so a
    non-data reference or a failed decoding drops only its own entry; a
    malformed base64 entry followed by a valid one yields only the valid
    entry. -/
theorem claim7_attachment_isolation :
    (∀ atts, processAttachments atts =
      (atts.filterMap decodeAttachment).foldl (fun m p => insertKV m p.1 p.2) []) ∧
    (∀ (a : Attachment) (u : PyStr), a.url = some u →
      (pystr "data:").isPrefixOf u = false → decodeAttachment a = none) ∧
    processAttachments
        [⟨some (pystr "bad.txt"), some (pystr "data:;base64,/w==")⟩,
         ⟨some (pystr "b.txt"), some (pystr "data:text/plain;base64,aGk=")⟩] =
      [(some (pystr "b.txt"), pystr "hi")] := by
  refine ⟨?_, ?_, by decide⟩
  · intro atts
    exact foldl_attachmentStep atts []
  · intro a u h hp
    simp [decodeAttachment, h, hp]

/-- Witness for claim C7: a concrete non-data reference is skipped. -/
theorem claim7_witness :
    decodeAttachment ⟨some (pystr "c.txt"), some (pystr "http://x")⟩ = none :=
  claim7_attachment_isolation.2.1 ⟨some (pystr "c.txt"), some (pystr "http://x")⟩
    (pystr "http://x") rfl (by decide)

/-- Claim C8: past input validation the publisher allocates a scratch
    directory and removes it on every exit path, the result being exactly
    what the body produced: the success triple when every step succeeds,
    and the underlying error of the first failing step (shown for the
    first and a mid-sequence step) when one raises. -/
theorem claim8_scratch_cleanup :
    ∀ (creds : PyStr × PyStr) (files : List (Key × PyStr)) (env : GitEnv) (s : FsState),
      files ≠ [] →
      ((createAndDeployRepo (some creds) files env s).2.tempDirs = s.tempDirs) ∧
      ((createAndDeployRepo (some creds) files env s).1 = deployBody env) ∧
      (∀ e, env.initRes = .error e →
        (createAndDeployRepo (some creds) files env s).1 = .error e) ∧
      (∀ e, env.initRes = .ok () → env.cfgNameRes = .ok () → env.cfgEmailRes = .ok () →
        env.writeRes = .ok () → env.addRes = .ok () → env.commitRes = .error e →
        (createAndDeployRepo (some creds) files env s).1 = .error e) ∧
      (∀ (out repoUrl pagesUrl : PyStr), env.initRes = .ok () → env.cfgNameRes = .ok () →
        env.cfgEmailRes = .ok () → env.writeRes = .ok () → env.addRes = .ok () →
        env.commitRes = .ok () → env.revParseRes = .ok out →
        env.createRepoRes = .ok (repoUrl, pagesUrl) →
        (createAndDeployRepo (some creds) files env s).1 =
          .ok (repoUrl, getCommitSha out, pagesUrl)) := by
  intro creds files env s hne
  have hfe : files.isEmpty = false := by
    cases files with
    | nil => exact absurd rfl hne
    | cons a rest => rfl
  have hrun : createAndDeployRepo (some creds) files env s =
      (deployBody env, ⟨s.nextId + 1, s.tempDirs⟩) := by
    simp [createAndDeployRepo, hfe, mkdtemp, rmtree]
  refine ⟨by rw [hrun], by rw [hrun], ?_, ?_, ?_⟩
  · intro e h1
    rw [hrun]
    simp only [deployBody, h1]
    rfl
  · intro e h1 h2 h3 h4 h5 h6
    rw [hrun]
    simp only [deployBody, h1, h2, h3, h4, h5, h6]
    rfl
  · intro out repoUrl pagesUrl h1 h2 h3 h4 h5 h6 h7 h8
    rw [hrun]
    simp only [deployBody, h1, h2, h3, h4, h5, h6, h7, h8]
    rfl

/-- Witness for claim C8: a concrete publication whose commit step raises
    still ends with the original temp-dir list and propagates the error. -/
theorem claim8_witness :
    (createAndDeployRepo (some (pystr "tok", pystr "user"))
        [(kIndex, pystr "<html></html>")]
        ⟨Except.ok (), Except.ok (), Except.ok (), Except.ok (), Except.ok (),
         Except.error (pystr "commit failed"), Except.ok (pystr "abc1234def\n"),
         Except.ok (pystr "R", pystr "P")⟩
        ⟨0, []⟩).2.tempDirs = [] ∧
    (createAndDeployRepo (some (pystr "tok", pystr "user"))
        [(kIndex, pystr "<html></html>")]
        ⟨Except.ok (), Except.ok (), Except.ok (), Except.ok (), Except.ok (),
         Except.error (pystr "commit failed"), Except.ok (pystr "abc1234def\n"),
         Except.ok (pystr "R", pystr "P")⟩
        ⟨0, []⟩).1 = .error (pystr "commit failed") := by
  have h := claim8_scratch_cleanup (pystr "tok", pystr "user")
    [(kIndex, pystr "<html></html>")]
    ⟨Except.ok (), Except.ok (), Except.ok (), Except.ok (), Except.ok (),
     Except.error (pystr "commit failed"), Except.ok (pystr "abc1234def\n"),
     Except.ok (pystr "R", pystr "P")⟩
    ⟨0, []⟩ (by decide)
  exact ⟨h.1, h.2.2.2.1 (pystr "commit failed") rfl rfl rfl rfl rfl rfl⟩

/-- Claim C9: a 409 conflict on the pages create call leads to an update
    call, whose 2xx family result decides the boolean; and whatever the
    pages call outcomes are (both unconstrained in the environment,
    covering non-2xx statuses and exceptions), create_github_repo still
    returns the repository URL and the computed pages URL once the earlier
    steps succeeded. -/
theorem claim9_pages_nonfatal :
    (∀ putRes, (enableGithubPages (some 409) putRes).2 =
      [HttpMethod.post, HttpMethod.put]) ∧
    (∀ s2, (enableGithubPages (some 409) (some s2)).1 = [200, 201, 204].contains s2) ∧
    (∀ (repoName username : PyStr) (env : RepoEnv),
      env.authRes = .ok () → env.getRepoRes = .ok () → env.remoteAddRes = .ok () →
      env.branchRes = .ok () → env.pushRes = .ok () →
      (createGithubRepo repoName username env).1 =
        .ok (env.repoHtmlUrl,
             pystr "https://" ++ username ++ pystr ".github.io/" ++ repoName ++ pystr "/")) := by
  refine ⟨?_, ?_, ?_⟩
  · intro putRes
    cases putRes <;> simp [enableGithubPages]
  · intro s2
    simp [enableGithubPages]
  · intro rn un env h1 h2 h3 h4 h5
    simp [createGithubRepo, h1, h2, h3, h4, h5]

/-- Witness for claim C9: a concrete environment whose pages POST returns
    500 still publishes successfully, and a 409 then 201 sequence uses
    POST then PUT and succeeds. -/
theorem claim9_witness :
    (createGithubRepo (pystr "task-1") (pystr "user")
        ⟨Except.ok (), Except.ok (), Except.ok (), Except.ok (), Except.ok (),
         Except.ok (), Except.ok (), pystr "H", some 500, none⟩).1 =
      .ok (pystr "H",
           pystr "https://" ++ pystr "user" ++ pystr ".github.io/" ++ pystr "task-1" ++ pystr "/") ∧
    (enableGithubPages (some 409) (some 201)).2 = [HttpMethod.post, HttpMethod.put] := by
  refine ⟨?_, ?_⟩
  · exact claim9_pages_nonfatal.2.2 (pystr "task-1") (pystr "user")
      ⟨Except.ok (), Except.ok (), Except.ok (), Except.ok (), Except.ok (),
       Except.ok (), Except.ok (), pystr "H", some 500, none⟩ rfl rfl rfl rfl rfl
  · exact claim9_pages_nonfatal.1 (some 201)

/-- Claim C10: when the fence-extracted text contains a case-insensitive
    opening html tag at index i but no closing tag, the computed end index
    is 6 (the failed find yields -1, plus 7), so the stored index.html
    content is the unchanged text when i is at least 6, and the slice of
    the first 6 characters from i (hence of length at most 6) when i is
    below 6. -/
theorem claim10_truncation :
    ∀ (s t : PyStr) (i : Nat),
      t = fenceStage (pyStrip s) →
      findAt (pyLower t) (pystr "<html") = some i →
      containsSub (pyLower t) (pystr "</html>") = false →
      (6 ≤ i → parseIndexHtml s = t) ∧
      (i < 6 → parseIndexHtml s = (t.take 6).drop i ∧ (parseIndexHtml s).length ≤ 6) := by
  intro s t i ht h1 h2
  have hnone : findAt (pyLower t) (pystr "</html>") = none := by
    cases hcase : findAt (pyLower t) (pystr "</html>") with
    | none => rfl
    | some j =>
      rw [containsSub, hcase] at h2
      simp at h2
  have hp : parseIndexHtml s = htmlStage t := by rw [parseIndexHtml, ← ht]
  rw [htmlStage_eq] at hp
  have hA : amendedHtml t = if i < 6 then (t.take 6).drop i else t := by
    simp [amendedHtml, h1, hnone]
  constructor
  · intro h6
    rw [hp, hA, if_neg (by omega)]
  · intro h6
    rw [hp, hA, if_pos h6]
    refine ⟨rfl, ?_⟩
    simp only [List.length_drop, List.length_take]
    omega

/-- Witness for claim C10: a response starting directly with the opening
    tag and lacking a closing tag is truncated to its first 6 characters. -/
theorem claim10_witness :
    parseIndexHtml (pystr "<html>x no closing") =
      ((fenceStage (pyStrip (pystr "<html>x no closing"))).take 6).drop 0 ∧
    parseIndexHtml (pystr "<html>x no closing") = pystr "<html>" := by
  have h := (claim10_truncation (pystr "<html>x no closing")
      (fenceStage (pyStrip (pystr "<html>x no closing"))) 0 rfl
      (by decide) (by decide)).2 (by omega)
  exact ⟨h.1, by decide⟩

end WebDeploy
